import Mathlib

/-!
Verification of the view-routing logic of `src/code/kuusi/web/routes/web.py`
(distrochooser / kuusi). The Python functions are shallowly embedded as pure
Lean functions over explicit database / request states:

* the `previous_page` / `next_page` foreign keys of `Page` records are
  modelled by the total link maps of `PageGraph` (a page id may or may not
  have a predecessor / successor);
* the unbounded `while` loops of `get_page_route` are modelled with an
  explicit fuel parameter: the loop result is `none` when the fuel runs out,
  and the Python loop terminates on an input iff some fuel makes the fueled
  loop succeed on it;
* Django ORM querysets (`filter`, `first`, `count`, `get`, `save`) become
  list operations over an explicit `Db` state, with `save` of a fresh object
  appending a row with an identity drawn from a counter and `save` of an
  existing object updating the row with the matching key;
* Python runtime failures (`AttributeError` on `None`, `IndexError`,
  `Http404`, `DoesNotExist`) become `Except PyErr` results.
-/

/-- Errors the Python code can raise. -/
inductive PyErr where
  | attributeError
  | indexError
  | http404
  | doesNotExist
deriving DecidableEq

/-- The `previous_page` / `next_page` foreign keys of the `Page` records,
as total maps from a page id to the optional id of its neighbour. -/
structure PageGraph where
  prev : Nat → Option Nat
  next : Nat → Option Nat

/-- The backward `while prev_page is not None` loop of `get_page_route`
(web.py lines 51-57): prepend each visited page, follow `previous_page`.
`none` means the fuel ran out (the Python loop would still be running). -/
def backLoop (g : PageGraph) : Nat → Option Nat → List Nat → Option (List Nat)
  | _, none, pages => some pages
  | 0, some _, _ => none
  | fuel + 1, some pp, pages => backLoop g fuel (g.prev pp) (pp :: pages)

/-- The forward `while next_page is not None` loop of `get_page_route`
(web.py lines 59-65): append each visited page, follow `next_page`. The
first component of the result is the final value of the `next_page` loop
variable, which the Python function returns; the loop only stops once that
variable is `None`. `none` means the fuel ran out. -/
def fwdLoop (g : PageGraph) : Nat → Option Nat → List Nat → Option (Option Nat × List Nat)
  | _, none, pages => some (none, pages)
  | 0, some _, _ => none
  | fuel + 1, some np, pages => fwdLoop g fuel (g.next np) (pages ++ [np])

/-- `get_page_route` (web.py lines 46-67): walk backward collecting the
pages before the start, append the start, walk forward collecting the pages
after it, and return the pair `(next_page, pages)` built from the final
loop variable and the collected list. `none` means some loop ran out of
fuel, i.e. the Python function would not have terminated within that many
iterations. -/
def get_page_route (g : PageGraph) (fuel : Nat) (page : Nat) :
    Option (Option Nat × List Nat) :=
  match backLoop g fuel (g.prev page) [] with
  | none => none
  | some pages => fwdLoop g fuel (g.next page) (pages ++ [page])

/-- `backChainB g op l` holds when walking the `previous_page` links from
the optional page `op` visits exactly the pages of `l` in order and then
stops. -/
def backChainB (g : PageGraph) : Option Nat → List Nat → Bool
  | none, [] => true
  | some q', q :: rest => q' == q && backChainB g (g.prev q) rest
  | _, _ => false

/-- `fwdChainB g op l` holds when walking the `next_page` links from the
optional page `op` visits exactly the pages of `l` in order and then
stops. -/
def fwdChainB (g : PageGraph) : Option Nat → List Nat → Bool
  | none, [] => true
  | some q', q :: rest => q' == q && fwdChainB g (g.next q) rest
  | _, _ => false

/-- `get_page_route` terminates when started at `p` (some fuel suffices). -/
def RouteTerminates (g : PageGraph) (p : Nat) : Prop :=
  ∃ fuel r, get_page_route g fuel p = some r

lemma backLoop_of_chain (g : PageGraph) :
    ∀ (rl : List Nat) (op : Option Nat) (fuel : Nat) (acc : List Nat),
      backChainB g op rl = true → rl.length ≤ fuel →
      backLoop g fuel op acc = some (rl.reverse ++ acc) := by
  intro rl
  induction rl with
  | nil =>
    intro op fuel acc hc _
    cases op with
    | none => cases fuel <;> rfl
    | some q => simp [backChainB] at hc
  | cons q rest ih =>
    intro op fuel acc hc hlen
    cases op with
    | none => simp [backChainB] at hc
    | some q' =>
      simp only [backChainB, Bool.and_eq_true, beq_iff_eq] at hc
      obtain ⟨hq, hrest⟩ := hc
      rw [hq]
      cases fuel with
      | zero => simp at hlen
      | succ f =>
        have hlen' : rest.length ≤ f := by
          simpa [Nat.succ_le_succ_iff] using hlen
        calc backLoop g (f + 1) (some q) acc
            = backLoop g f (g.prev q) (q :: acc) := rfl
          _ = some (rest.reverse ++ (q :: acc)) := ih _ f _ hrest hlen'
          _ = some ((q :: rest).reverse ++ acc) := by simp

lemma fwdLoop_of_chain (g : PageGraph) :
    ∀ (l : List Nat) (op : Option Nat) (fuel : Nat) (acc : List Nat),
      fwdChainB g op l = true → l.length ≤ fuel →
      fwdLoop g fuel op acc = some (none, acc ++ l) := by
  intro l
  induction l with
  | nil =>
    intro op fuel acc hc _
    cases op with
    | none => cases fuel <;> simp [fwdLoop]
    | some q => simp [fwdChainB] at hc
  | cons q rest ih =>
    intro op fuel acc hc hlen
    cases op with
    | none => simp [fwdChainB] at hc
    | some q' =>
      simp only [fwdChainB, Bool.and_eq_true, beq_iff_eq] at hc
      obtain ⟨hq, hrest⟩ := hc
      rw [hq]
      cases fuel with
      | zero => simp at hlen
      | succ f =>
        have hlen' : rest.length ≤ f := by
          simpa [Nat.succ_le_succ_iff] using hlen
        calc fwdLoop g (f + 1) (some q) acc
            = fwdLoop g f (g.next q) (acc ++ [q]) := rfl
          _ = some (none, (acc ++ [q]) ++ rest) := ih _ f _ hrest hlen'
          _ = some (none, acc ++ q :: rest) := by simp

/-- On a chain `pre ++ [p] ++ suf` whose links match the graph,
`get_page_route` returns the whole chain, and `none` as the first
component (the forward loop variable is `None` whenever the loop stops). -/
lemma get_page_route_chain (g : PageGraph) (pre suf : List Nat) (p fuel : Nat)
    (hb : backChainB g (g.prev p) pre.reverse = true)
    (hf : fwdChainB g (g.next p) suf = true)
    (hfb : pre.length ≤ fuel) (hff : suf.length ≤ fuel) :
    get_page_route g fuel p = some (none, pre ++ p :: suf) := by
  unfold get_page_route
  rw [backLoop_of_chain g pre.reverse (g.prev p) fuel [] hb (by simpa using hfb)]
  simp only [List.reverse_reverse, List.append_nil]
  rw [fwdLoop_of_chain g suf (g.next p) fuel (pre ++ [p]) hf hff]
  simp

/-- A concrete three-page chain 0 → 1 → 2 (A → B → C). -/
def g3 : PageGraph where
  prev := fun p => if p = 1 then some 0 else if p = 2 then some 1 else none
  next := fun p => if p = 0 then some 1 else if p = 1 then some 2 else none

/-- A concrete malformed link structure: the `previous_page` references of
pages 0 and 1 point at each other, forming a cycle. -/
def gcyc : PageGraph where
  prev := fun p => if p = 0 then some 1 else if p = 1 then some 0 else none
  next := fun _ => none

/-- C1: on the chain A=0 → B=1 → C=2 started at B, `get_page_route` returns
`none` as its first component (the forward loop only stops once its loop
variable is `None`, and that variable is what the function returns), not
the page C following the start as the claim and the docstring state; the
page list itself is the full chain [A, B, C]. -/
theorem get_page_route_returns_no_next :
    get_page_route g3 9 1 = some (none, [0, 1, 2]) ∧
    ¬ ∃ pages, get_page_route g3 9 1 = some (some 2, pages) := by
  constructor
  · decide
  · rintro ⟨pages, h⟩
    have h' : get_page_route g3 9 1 = some (none, [0, 1, 2]) := by decide
    rw [h'] at h
    simp at h

/-- C2: for every acyclic page chain `pre ++ [p] ++ suf` (links matching the
graph, no duplicate pages) and enough fuel, `get_page_route` started at `p`
returns a page list containing every page of the chain exactly once, in
link order, with the starting page `p` at the position it occupies in the
chain. -/
theorem get_page_route_complete (g : PageGraph) (pre suf : List Nat) (p fuel : Nat)
    (hb : backChainB g (g.prev p) pre.reverse = true)
    (hf : fwdChainB g (g.next p) suf = true)
    (hnd : (pre ++ p :: suf).Nodup)
    (hfb : pre.length ≤ fuel) (hff : suf.length ≤ fuel) :
    ∃ pages, get_page_route g fuel p = some (none, pages) ∧
      pages = pre ++ p :: suf ∧
      (∀ q ∈ pre ++ p :: suf, pages.count q = 1) ∧
      pages[pre.length]? = some p := by
  refine ⟨pre ++ p :: suf, get_page_route_chain g pre suf p fuel hb hf hfb hff, rfl, ?_, ?_⟩
  · intro q hq
    exact List.count_eq_one_of_mem hnd hq
  · rw [List.getElem?_append_right (Nat.le_refl _)]
    simp

/-- Witness for C2 on the concrete chain 0 → 1 → 2 started at 1. -/
theorem get_page_route_complete_witness :
    ∃ pages, get_page_route g3 2 1 = some (none, pages) ∧
      pages = [0] ++ 1 :: [2] ∧
      (∀ q ∈ [0] ++ 1 :: [2], pages.count q = 1) ∧
      pages[([0] : List Nat).length]? = some 1 :=
  get_page_route_complete g3 [0] [2] 1 2 (by decide) (by decide) (by decide)
    (by decide) (by decide)

lemma backLoop_gcyc_none : ∀ (fuel : Nat) (acc : List Nat) (b : Nat),
    b = 0 ∨ b = 1 → backLoop gcyc fuel (some b) acc = none := by
  intro fuel
  induction fuel with
  | zero => intro acc b _; rfl
  | succ f ih =>
    intro acc b hb
    rcases hb with rfl | rfl
    · have hprev : gcyc.prev 0 = some 1 := rfl
      calc backLoop gcyc (f + 1) (some 0) acc
          = backLoop gcyc f (gcyc.prev 0) (0 :: acc) := rfl
        _ = backLoop gcyc f (some 1) (0 :: acc) := by rw [hprev]
        _ = none := ih _ 1 (Or.inr rfl)
    · have hprev : gcyc.prev 1 = some 0 := rfl
      calc backLoop gcyc (f + 1) (some 1) acc
          = backLoop gcyc f (gcyc.prev 1) (1 :: acc) := rfl
        _ = backLoop gcyc f (some 0) (1 :: acc) := by rw [hprev]
        _ = none := ih _ 0 (Or.inl rfl)

/-- C3 counterexample: on the concrete cyclic chain (pages 0 and 1 are each
other's `previous_page`), `get_page_route` started at 0 terminates for no
amount of fuel: the backward `while` loop of the Python function runs
forever, and no structural-error signal is ever produced. -/
theorem get_page_route_cyclic_diverges :
    gcyc.prev 0 = some 1 ∧ gcyc.prev 1 = some 0 ∧ ¬ RouteTerminates gcyc 0 := by
  refine ⟨rfl, rfl, ?_⟩
  rintro ⟨fuel, r, h⟩
  unfold get_page_route at h
  have hprev : gcyc.prev 0 = some 1 := rfl
  rw [hprev, backLoop_gcyc_none fuel [] 1 (Or.inr rfl)] at h
  simp at h

/-- C3 (amended): `get_page_route` terminates on every acyclic page chain
(fuel covering the chain length suffices); on a chain whose `previous_page`
links form a cycle it does not terminate — see the counterexample — since
the code contains no cycle guard and no structural-error signal. -/
theorem get_page_route_terminates_on_chains (g : PageGraph) (pre suf : List Nat)
    (p fuel : Nat)
    (hb : backChainB g (g.prev p) pre.reverse = true)
    (hf : fwdChainB g (g.next p) suf = true)
    (hfb : pre.length ≤ fuel) (hff : suf.length ≤ fuel) :
    RouteTerminates g p :=
  ⟨fuel, (none, pre ++ p :: suf), get_page_route_chain g pre suf p fuel hb hf hfb hff⟩

/-- Witness for the amended C3 on the concrete chain 0 → 1 → 2 started at 0. -/
theorem get_page_route_terminates_on_chains_witness : RouteTerminates g3 0 :=
  get_page_route_terminates_on_chains g3 [] [1, 2] 0 2 (by decide) (by decide)
    (by decide) (by decide)

/-- A `web.models.Page` record as used by the routing code. The
`previous_page` / `next_page` foreign keys live in the accompanying
`PageGraph`; the remaining fields used by `web.py` are kept here. -/
structure Page where
  pid : Nat
  require_session : Bool
  is_invalidated : Bool
  href : String
deriving DecidableEq

/-- A `web.models.Session` record. `result_id` is the immutable identity,
`session_origin` the foreign key to the session it was cloned from. -/
structure Session where
  result_id : Nat
  valid_for : String
  session_origin : Option Nat
  user_agent : Option String
  referrer : Option String
  language_code : Option String
deriving DecidableEq

/-- A `web.models.FacetteSelection` row: primary key plus the
`(session, facette)` foreign-key pair. -/
structure FacetteSelection where
  pk : Nat
  session : Nat
  facette : Nat
deriving DecidableEq

/-- The persistent store the routing code reads and writes: session rows,
selection rows, and the counters from which `save` of a fresh object draws
its new identity. -/
structure Db where
  sessions : List Session
  selections : List FacetteSelection
  nextSessionId : Nat
  nextPk : Nat
deriving DecidableEq

/-- The parts of the `WebHttpRequest` object the routing code uses:
`request.session["result_id"]` (the visitor's session store), the
`user-agent` and `referrer` headers, the `page` GET parameter and
`request.get_full_path()`. -/
structure WebHttpRequest where
  sessionStore : Option Nat
  user_agent : Option String
  referrer : Option String
  pageParam : Option Nat
  fullPath : String
deriving DecidableEq

/-- `session.save()` on an already-persisted session: update the row whose
`result_id` matches. -/
def saveSession (s : Session) (db : Db) : Db :=
  { db with sessions := db.sessions.map (fun t => if t.result_id == s.result_id then s else t) }

/-- `get_fresh_session` (web.py lines 91-96): build a session from the
`user-agent` header, `save()` it (the row is appended with a fresh
identity), then set `referrer` on the in-memory object only — the Python
code assigns it after `save()`, so the stored row keeps no referrer. The
`valid_for = "latest"` default of a new `Session` is the model default of
`web.models.Session` (not under src/), modelled from the spec's version-tag
description of fresh sessions. -/
def get_fresh_session (req : WebHttpRequest) (db : Db) : Session × Db :=
  let s0 : Session :=
    { result_id := db.nextSessionId, valid_for := "latest", session_origin := none,
      user_agent := req.user_agent, referrer := none, language_code := none }
  let db' := { db with
    sessions := db.sessions ++ [s0],
    nextSessionId := db.nextSessionId + 1 }
  ({ s0 with referrer := req.referrer }, db')

/-- `get_session` (web.py lines 69-89). The local `session` starts as
`None`; when `page.require_session` holds it is resolved from the visitor's
stored `result_id` (fresh when the store is empty, fresh when the stored
session is not valid for "latest"). The final unconditional
`request.session["result_id"] = session.result_id` dereferences `session`:
when it is still `None` — `require_session` false, or the stored id
matching no row so that `session.valid_for` is read off `None` — the
function raises `AttributeError`. -/
def get_session (page : Page) (req : WebHttpRequest) (db : Db) :
    Except PyErr (Session × Db × WebHttpRequest) :=
  if page.require_session then
    match req.sessionStore with
    | none =>
      let (s, db') := get_fresh_session req db
      .ok (s, db', { req with sessionStore := some s.result_id })
    | some rid =>
      match (db.sessions.filter (fun t => t.result_id == rid)).head? with
      | none => .error .attributeError
      | some s =>
        if s.valid_for ≠ "latest" then
          let (s', db') := get_fresh_session req db
          .ok (s', db', { req with sessionStore := some s'.result_id })
        else
          .ok (s, db, { req with sessionStore := some s.result_id })
  else .error .attributeError

/-- The `for selection in selections` loop of `clone_selections` (web.py
lines 105-115): for each selection of the old session (snapshot of the
queryset), copy it to the new session with a fresh primary key unless the
live store already holds a selection of the new session with the same
facette. -/
def copyLoop (s : Session) : List FacetteSelection → Db → Db
  | [], db => db
  | sel :: rest, db =>
    if (db.selections.filter
          (fun t => t.session == s.result_id && t.facette == sel.facette)).length = 0 then
      copyLoop s rest
        { db with
          selections := db.selections ++
            [{ pk := db.nextPk, session := s.result_id, facette := sel.facette }],
          nextPk := db.nextPk + 1 }
    else
      copyLoop s rest db

/-- `clone_selections` (web.py lines 98-132). Looks up the old session by
`result_id`; when found: if the current session has no `session_origin`,
copy the old session's selections (skipping facettes already selected),
pin `valid_for` to the old session's version and record the origin; if it
has a different origin, create a brand-new session referencing the old one
and store its `result_id` in the visitor context; if it is already linked
to this old session, do nothing. Returns the session object as the caller
sees it afterwards (the Python code mutates it in the first branch and
only rebinds a local in the second), the store and the request. -/
def clone_selections (id : Nat) (req : WebHttpRequest) (session : Session) (db : Db) :
    Session × Db × WebHttpRequest :=
  match (db.sessions.filter (fun t => t.result_id == id)).head? with
  | none => (session, db, req)
  | some old_session =>
    match session.session_origin with
    | none =>
      let sels := db.selections.filter (fun t => t.session == old_session.result_id)
      let db1 := copyLoop session sels db
      let session' := { session with
        valid_for := old_session.valid_for,
        session_origin := some old_session.result_id }
      (session', saveSession session' db1, req)
    | some originId =>
      if originId ≠ old_session.result_id then
        let s : Session :=
          { result_id := db.nextSessionId, valid_for := "latest",
            session_origin := some old_session.result_id,
            user_agent := req.user_agent, referrer := none, language_code := none }
        (session,
         { db with
           sessions := db.sessions ++ [s],
           nextSessionId := db.nextSessionId + 1 },
         { req with sessionStore := some s.result_id })
      else (session, db, req)

/-- A page requiring a session, for the C7 failing input. -/
def pageS : Page := { pid := 0, require_session := true, is_invalidated := false, href := "/p0" }

/-- A page not requiring a session, for the C10 failing input. -/
def pageNoS : Page := { pid := 0, require_session := false, is_invalidated := false, href := "/p0" }

/-- A visitor context carrying the session identifier 7. -/
def reqWithId : WebHttpRequest :=
  { sessionStore := some 7, user_agent := none, referrer := none,
    pageParam := none, fullPath := "/en" }

/-- A store holding no sessions and no selections. -/
def dbEmpty : Db := { sessions := [], selections := [], nextSessionId := 10, nextPk := 10 }

/-- C7: when the visitor context carries a session identifier that matches
no stored session, `get_session` does not create a fresh session — it
raises `AttributeError`, because `Session.objects.filter(...).first()`
returns `None` and line 84 reads `session.valid_for` off it. -/
theorem get_session_missing_session_crashes :
    get_session pageS reqWithId dbEmpty = .error .attributeError := rfl

/-- C10: for a page whose `require_session` flag is false, `get_session`
does not complete without error: the local `session` stays `None` and the
unconditional `request.session["result_id"] = session.result_id` at line
88 raises `AttributeError`. -/
theorem get_session_no_session_required_crashes :
    get_session pageNoS reqWithId dbEmpty = .error .attributeError := rfl

/-- The facettes currently selected in session `sid`: the `facette` fields
of the selection rows whose `session` foreign key is `sid`. -/
def sessionFacettes (db : Db) (sid : Nat) : List Nat :=
  (db.selections.filter (fun t => t.session == sid)).map (fun t => t.facette)

lemma sessionFacettes_saveSession (s : Session) (db : Db) (sid : Nat) :
    sessionFacettes (saveSession s db) sid = sessionFacettes db sid := rfl

lemma countCheck_iff (db : Db) (sid f : Nat) :
    ((db.selections.filter
        (fun t => t.session == sid && t.facette == f)).length = 0)
      ↔ f ∉ sessionFacettes db sid := by
  rw [List.length_eq_zero, List.filter_eq_nil_iff]
  constructor
  · intro h hmem
    rw [sessionFacettes, List.mem_map] at hmem
    obtain ⟨t, htf, hfac⟩ := hmem
    rw [List.mem_filter] at htf
    obtain ⟨htl, hts⟩ := htf
    exact h t htl (by simp only [Bool.and_eq_true, beq_iff_eq] at hts ⊢; exact ⟨hts, hfac⟩)
  · intro hnot t htl hpred
    simp only [Bool.and_eq_true, beq_iff_eq] at hpred
    apply hnot
    rw [sessionFacettes, List.mem_map]
    exact ⟨t, List.mem_filter.mpr ⟨htl, by simp [hpred.1]⟩, hpred.2⟩

lemma copyLoop_sessions (s : Session) :
    ∀ (sels : List FacetteSelection) (db : Db),
      (copyLoop s sels db).sessions = db.sessions := by
  intro sels
  induction sels with
  | nil => intro db; rfl
  | cons sel rest ih =>
    intro db
    rw [copyLoop]
    split
    · exact ih _
    · exact ih _

lemma copyLoop_facettes (s : Session) :
    ∀ (sels : List FacetteSelection) (db : Db),
      ((sels.map (fun t => t.facette)).Nodup) →
      sessionFacettes (copyLoop s sels db) s.result_id
        = sessionFacettes db s.result_id
          ++ (sels.map (fun t => t.facette)).filter
              (fun f => decide (f ∉ sessionFacettes db s.result_id)) := by
  intro sels
  induction sels with
  | nil => intro db _; simp [copyLoop]
  | cons sel rest ih =>
    intro db hnd
    simp only [List.map_cons, List.nodup_cons] at hnd
    obtain ⟨hselnot, hnd'⟩ := hnd
    by_cases hmem : sel.facette ∈ sessionFacettes db s.result_id
    · rw [copyLoop, if_neg (by rw [countCheck_iff]; simpa using hmem)]
      rw [ih db hnd']
      simp [List.filter_cons, hmem]
    · rw [copyLoop, if_pos ((countCheck_iff db s.result_id sel.facette).mpr hmem)]
      set dbx : Db := { db with
        selections := db.selections ++
          [{ pk := db.nextPk, session := s.result_id, facette := sel.facette }],
        nextPk := db.nextPk + 1 } with hdbx
      have hfx : sessionFacettes dbx s.result_id
          = sessionFacettes db s.result_id ++ [sel.facette] := by
        simp [sessionFacettes, hdbx, List.filter_append]
      rw [ih dbx hnd', hfx]
      have hcongr : (rest.map (fun t => t.facette)).filter
            (fun f => decide (f ∉ sessionFacettes db s.result_id ++ [sel.facette]))
          = (rest.map (fun t => t.facette)).filter
            (fun f => decide (f ∉ sessionFacettes db s.result_id)) := by
        apply List.filter_congr
        intro x hx
        have hxne : x ≠ sel.facette := by
          intro hcontra
          exact hselnot (hcontra ▸ hx)
        simp [List.mem_append, hxne]
      rw [hcongr]
      simp [List.filter_cons, hmem, List.append_assoc]

lemma filter_pair_length (sid f : Nat) :
    ∀ l : List FacetteSelection,
      (l.filter (fun t => t.session == sid && t.facette == f)).length
        = ((l.filter (fun t => t.session == sid)).map (fun t => t.facette)).count f := by
  intro l
  induction l with
  | nil => rfl
  | cons a rest ih =>
    by_cases hs : a.session = sid
    · by_cases hf : a.facette = f
      · simp [List.filter_cons, hs, hf, List.count_cons, ih]
      · simp [List.filter_cons, hs, hf, List.count_cons, ih]
    · simp [List.filter_cons, hs, ih]

lemma clone_selections_eq_no_origin (id : Nat) (req : WebHttpRequest) (s : Session)
    (db : Db) (old : Session)
    (hold : (db.sessions.filter (fun t => t.result_id == id)).head? = some old)
    (horig : s.session_origin = none) :
    clone_selections id req s db
      = ({ s with valid_for := old.valid_for, session_origin := some old.result_id },
         saveSession
           { s with valid_for := old.valid_for, session_origin := some old.result_id }
           (copyLoop s (db.selections.filter (fun t => t.session == old.result_id)) db),
         req) := by
  unfold clone_selections
  rw [hold, horig]

lemma clone_selections_eq_same_origin (id : Nat) (req : WebHttpRequest) (s : Session)
    (db : Db) (old : Session)
    (hold : (db.sessions.filter (fun t => t.result_id == id)).head? = some old)
    (horig : s.session_origin = some old.result_id) :
    clone_selections id req s db = (s, db, req) := by
  unfold clone_selections
  rw [hold, horig]
  simp

lemma filter_rid_map_upd (upd : Session → Session)
    (hupd : ∀ t, (upd t).result_id = t.result_id) (id : Nat) :
    ∀ l : List Session,
      (l.map upd).filter (fun t => t.result_id == id)
        = (l.filter (fun t => t.result_id == id)).map upd := by
  intro l
  induction l with
  | nil => rfl
  | cons a rest ih =>
    by_cases h : a.result_id = id
    · simp [List.filter_cons, hupd, h, ih]
    · simp [List.filter_cons, hupd, h, ih]

lemma saveSession_sessions (s : Session) (db : Db) :
    (saveSession s db).sessions
      = db.sessions.map (fun t => if t.result_id == s.result_id then s else t) := rfl

lemma clone_selections_eq_diff_origin (id : Nat) (req : WebHttpRequest) (s : Session)
    (db : Db) (old : Session) (x : Nat)
    (hold : (db.sessions.filter (fun t => t.result_id == id)).head? = some old)
    (horig : s.session_origin = some x)
    (hx : x ≠ old.result_id) :
    clone_selections id req s db
      = (s,
         { db with
           sessions := db.sessions ++
             [{ result_id := db.nextSessionId, valid_for := "latest",
                session_origin := some old.result_id,
                user_agent := req.user_agent, referrer := none, language_code := none }],
           nextSessionId := db.nextSessionId + 1 },
         { req with sessionStore := some db.nextSessionId }) := by
  unfold clone_selections
  rw [hold, horig]
  simp [hx]

/-- C5: when the current session is already linked (by `session_origin`) to
a session other than the old session being referenced, `clone_selections`
creates a brand-new session — appended with an identity fresh with respect
to every stored session — whose `session_origin` is the newly referenced
old session, stores its `result_id` as the active session reference of the
visitor context, and copies no selections. -/
theorem clone_selections_new_identity (id : Nat) (req : WebHttpRequest) (s : Session)
    (db : Db) (old : Session) (x : Nat)
    (hold : (db.sessions.filter (fun t => t.result_id == id)).head? = some old)
    (horig : s.session_origin = some x)
    (hx : x ≠ old.result_id)
    (hfresh : ∀ t ∈ db.sessions, t.result_id < db.nextSessionId) :
    ∃ ns : Session,
      (clone_selections id req s db).2.1.sessions = db.sessions ++ [ns] ∧
      ns.result_id = db.nextSessionId ∧
      ns.result_id ∉ db.sessions.map (fun t => t.result_id) ∧
      ns.session_origin = some old.result_id ∧
      (clone_selections id req s db).2.2.sessionStore = some ns.result_id ∧
      (clone_selections id req s db).2.1.selections = db.selections := by
  rw [clone_selections_eq_diff_origin id req s db old x hold horig hx]
  refine ⟨_, rfl, rfl, ?_, rfl, rfl, rfl⟩
  intro hmem
  rw [List.mem_map] at hmem
  obtain ⟨t, htl, hrid⟩ := hmem
  exact absurd hrid (Nat.ne_of_lt (hfresh t htl))

/-- An old session with one recorded selection, for concrete witnesses. -/
def old6 : Session :=
  { result_id := 1, valid_for := "v1", session_origin := none,
    user_agent := none, referrer := none, language_code := none }

/-- A new session with no recorded origin, for concrete witnesses. -/
def s6 : Session :=
  { result_id := 2, valid_for := "latest", session_origin := none,
    user_agent := none, referrer := none, language_code := none }

/-- A session already linked to a session other than `old6`. -/
def s5 : Session :=
  { result_id := 2, valid_for := "latest", session_origin := some 0,
    user_agent := none, referrer := none, language_code := none }

/-- A store holding `old6` (with one selection of facette 5) and `s6`. -/
def db6 : Db :=
  { sessions := [old6, s6],
    selections := [{ pk := 1, session := 1, facette := 5 }],
    nextSessionId := 3, nextPk := 2 }

/-- A store holding `old6` (with one selection of facette 5) and `s5`. -/
def db5 : Db :=
  { sessions := [old6, s5],
    selections := [{ pk := 1, session := 1, facette := 5 }],
    nextSessionId := 3, nextPk := 2 }

/-- A plain visitor context for the clone witnesses. -/
def req6 : WebHttpRequest :=
  { sessionStore := some 2, user_agent := some "ua", referrer := none,
    pageParam := none, fullPath := "/en" }

/-- Witness for C5 at a concrete store: session 2 references old session 1
while already originating from session 0. -/
theorem clone_selections_new_identity_witness :
    ∃ ns : Session,
      (clone_selections 1 req6 s5 db5).2.1.sessions = db5.sessions ++ [ns] ∧
      ns.result_id = db5.nextSessionId ∧
      ns.result_id ∉ db5.sessions.map (fun t => t.result_id) ∧
      ns.session_origin = some old6.result_id ∧
      (clone_selections 1 req6 s5 db5).2.2.sessionStore = some ns.result_id ∧
      (clone_selections 1 req6 s5 db5).2.1.selections = db5.selections :=
  clone_selections_new_identity 1 req6 s5 db5 old6 0 (by decide) (by decide)
    (by decide) (by decide)

/-- C6: when the old session exists and the current session has no recorded
origin, `clone_selections` copies into the current session exactly those of
the old session's selections whose facette is not already selected there —
so the current session ends with no duplicate facette — and afterwards the
session object's `valid_for` equals the old session's and its
`session_origin` references the old session; the request is untouched. -/
theorem clone_selections_no_origin (id : Nat) (req : WebHttpRequest) (s : Session)
    (db : Db) (old : Session)
    (hold : (db.sessions.filter (fun t => t.result_id == id)).head? = some old)
    (horig : s.session_origin = none)
    (hnd : (sessionFacettes db old.result_id).Nodup) :
    (clone_selections id req s db).1.valid_for = old.valid_for ∧
    (clone_selections id req s db).1.session_origin = some old.result_id ∧
    (clone_selections id req s db).2.2 = req ∧
    sessionFacettes (clone_selections id req s db).2.1 s.result_id
      = sessionFacettes db s.result_id
        ++ (sessionFacettes db old.result_id).filter
            (fun f => decide (f ∉ sessionFacettes db s.result_id)) ∧
    ((sessionFacettes db s.result_id).Nodup →
      (sessionFacettes (clone_selections id req s db).2.1 s.result_id).Nodup) := by
  rw [clone_selections_eq_no_origin id req s db old hold horig]
  have hkey : sessionFacettes
        (copyLoop s (db.selections.filter (fun t => t.session == old.result_id)) db)
        s.result_id
      = sessionFacettes db s.result_id
        ++ (sessionFacettes db old.result_id).filter
            (fun f => decide (f ∉ sessionFacettes db s.result_id)) :=
    copyLoop_facettes s _ db hnd
  refine ⟨rfl, rfl, rfl, ?_, ?_⟩
  · exact hkey
  · intro hnd0
    show (sessionFacettes
        (copyLoop s (db.selections.filter (fun t => t.session == old.result_id)) db)
        s.result_id).Nodup
    rw [hkey]
    refine List.Nodup.append hnd0 (hnd.filter _) ?_
    intro a ha hb
    rw [List.mem_filter] at hb
    exact (of_decide_eq_true hb.2) ha

/-- Witness for C6 at a concrete store: old session 1 holds facette 5, new
session 2 has no origin and no selections. -/
theorem clone_selections_no_origin_witness :
    (clone_selections 1 req6 s6 db6).1.valid_for = old6.valid_for ∧
    (clone_selections 1 req6 s6 db6).1.session_origin = some old6.result_id ∧
    (clone_selections 1 req6 s6 db6).2.2 = req6 ∧
    sessionFacettes (clone_selections 1 req6 s6 db6).2.1 s6.result_id
      = sessionFacettes db6 s6.result_id
        ++ (sessionFacettes db6 old6.result_id).filter
            (fun f => decide (f ∉ sessionFacettes db6 s6.result_id)) ∧
    ((sessionFacettes db6 s6.result_id).Nodup →
      (sessionFacettes (clone_selections 1 req6 s6 db6).2.1 s6.result_id).Nodup) :=
  clone_selections_no_origin 1 req6 s6 db6 old6 (by decide) (by decide) (by decide)

/-- C4: cloning twice in a row with the same old-session id and the same
(now updated) session object and store changes nothing the second time —
the session is already linked to this exact old session — and the store
after the first call holds exactly one copy of each of the old session's
selections for the new session. -/
theorem clone_selections_idempotent (id : Nat) (req : WebHttpRequest) (s : Session)
    (db : Db) (old : Session)
    (hold : (db.sessions.filter (fun t => t.result_id == id)).head? = some old)
    (horig : s.session_origin = none)
    (hne : s.result_id ≠ id)
    (hempty : db.selections.filter (fun t => t.session == s.result_id) = [])
    (hnd : (sessionFacettes db old.result_id).Nodup) :
    clone_selections id (clone_selections id req s db).2.2
        (clone_selections id req s db).1 (clone_selections id req s db).2.1
      = clone_selections id req s db ∧
    ∀ f ∈ sessionFacettes db old.result_id,
      ((clone_selections id req s db).2.1.selections.filter
          (fun t => t.session == s.result_id && t.facette == f)).length = 1 := by
  have h1 := clone_selections_eq_no_origin id req s db old hold horig
  have hridold : old.result_id = id := by
    have hmem : old ∈ db.sessions.filter (fun t => t.result_id == id) := by
      cases hfe : db.sessions.filter (fun t => t.result_id == id) with
      | nil => rw [hfe] at hold; simp at hold
      | cons a rest =>
        rw [hfe] at hold
        simp only [List.head?_cons, Option.some.injEq] at hold
        rw [hold]
        exact List.mem_cons_self old rest
    simpa using (List.mem_filter.mp hmem).2
  rw [h1]
  set s' : Session :=
    { s with valid_for := old.valid_for, session_origin := some old.result_id } with hs'
  set db1 : Db :=
    copyLoop s (db.selections.filter (fun t => t.session == old.result_id)) db with hdb1
  set db2 : Db := saveSession s' db1 with hdb2
  have hsridents : s'.result_id = s.result_id := rfl
  have hupd : ∀ t : Session,
      ((fun t => if t.result_id == s'.result_id then s' else t) t).result_id
        = t.result_id := by
    intro t
    by_cases h : (t.result_id == s'.result_id) = true
    · have ht : t.result_id = s'.result_id := by simpa using h
      simp [h, ht]
    · simp [h]
  have hsess2 : db2.sessions
      = db.sessions.map (fun t => if t.result_id == s'.result_id then s' else t) := by
    rw [hdb2, saveSession_sessions, hdb1, copyLoop_sessions]
  have hold2 : (db2.sessions.filter (fun t => t.result_id == id)).head? = some old := by
    rw [hsess2, filter_rid_map_upd _ hupd id]
    cases hfe : db.sessions.filter (fun t => t.result_id == id) with
    | nil => rw [hfe] at hold; simp at hold
    | cons a rest =>
      rw [hfe] at hold
      simp only [List.head?_cons, Option.some.injEq] at hold
      subst hold
      simp only [List.map_cons, List.head?_cons, Option.some.injEq]
      have hcond : (a.result_id == s'.result_id) = false := by
        rw [hsridents, hridold]
        simp only [beq_eq_false_iff_ne, ne_eq]
        exact fun h => hne h.symm
      simp [hcond]
  constructor
  · show clone_selections id req s' db2 = (s', db2, req)
    exact clone_selections_eq_same_origin id req s' db2 old hold2 rfl
  · intro f hf
    show ((db2.selections).filter
        (fun t => t.session == s.result_id && t.facette == f)).length = 1
    rw [filter_pair_length]
    show (sessionFacettes db2 s.result_id).count f = 1
    have hinit : sessionFacettes db s.result_id = [] := by
      rw [sessionFacettes, hempty]
      rfl
    have hfac2 : sessionFacettes db2 s.result_id = sessionFacettes db old.result_id := by
      rw [hdb2, sessionFacettes_saveSession, hdb1, copyLoop_facettes s _ db hnd, hinit]
      simp [sessionFacettes]
    rw [hfac2]
    exact List.count_eq_one_of_mem hnd hf

/-- Witness for C4 at a concrete store: old session 1 holds facette 5, new
session 2 has no origin and no selections; the double clone is a no-op the
second time and leaves one copy of the selection. -/
theorem clone_selections_idempotent_witness :
    clone_selections 1 (clone_selections 1 req6 s6 db6).2.2
        (clone_selections 1 req6 s6 db6).1 (clone_selections 1 req6 s6 db6).2.1
      = clone_selections 1 req6 s6 db6 ∧
    ∀ f ∈ sessionFacettes db6 old6.result_id,
      ((clone_selections 1 req6 s6 db6).2.1.selections.filter
          (fun t => t.session == s6.result_id && t.facette == f)).length = 1 :=
  clone_selections_idempotent 1 req6 s6 db6 old6 (by decide) (by decide) (by decide)
    (by decide) (by decide)

/-- A `web.models.ChoosableMeta` value: the stored redirect target. -/
structure ChoosableMeta where
  meta_value : String
deriving DecidableEq

/-- A `web.models.Choosable` row: primary key, persisted click counter and
its `meta` mapping. The `meta` property (property-name → `ChoosableMeta`)
is built by the model class outside src/; it is modelled from the spec as
an association list keyed by the property name. -/
structure Choosable where
  pk : Nat
  clicked : Nat
  meta : List (String × ChoosableMeta)
deriving DecidableEq

/-- The store of `Choosable` rows. -/
structure ChoosableDb where
  choosables : List Choosable
deriving DecidableEq

/-- Python's `str.upper()` for the ASCII property keys used here. -/
def pyUpper (s : String) : String := ⟨s.data.map Char.toUpper⟩

/-- Dictionary membership and access on the `meta` mapping:
`property in choosable.meta` / `choosable.meta[property]`. -/
def metaLookup (m : List (String × ChoosableMeta)) (k : String) : Option ChoosableMeta :=
  (m.find? (fun e => e.1 == k)).map (fun e => e.2)

/-- `route_outgoing` (web.py lines 178-190): filter the Choosables by
primary key; uppercase the property; when exactly one row matches and the
key is in its `meta` mapping, increment the row's persisted click counter
and redirect to the stored `meta_value`; in every other case raise
`Http404`. -/
def route_outgoing (db : ChoosableDb) (id : Nat) (property : String) :
    Except PyErr (ChoosableDb × String) :=
  if (db.choosables.filter (fun c => c.pk == id)).length = 1 then
    match (db.choosables.filter (fun c => c.pk == id)).head? with
    | some choosable =>
      match metaLookup choosable.meta (pyUpper property) with
      | none => .error .http404
      | some m =>
        .ok ({ choosables := db.choosables.map
                 (fun t => if t.pk == choosable.pk then
                    { t with clicked := t.clicked + 1 } else t) },
             m.meta_value)
    | none => .error .http404
  else .error .http404

/-- C8: `route_outgoing` raises the not-found signal exactly when the
identifier does not match exactly one Choosable or the case-normalised
property key is absent from its `meta` mapping; when a unique Choosable
exists and the key is present, it returns the exact stored target value
and the store in which precisely that Choosable's click counter grew by
one. -/
theorem route_outgoing_spec (db : ChoosableDb) (id : Nat) (property : String) :
    ((∃ e, route_outgoing db id property = .error e) ↔
      ¬ ∃ c, db.choosables.filter (fun c => c.pk == id) = [c] ∧
        (metaLookup c.meta (pyUpper property)).isSome = true) ∧
    (∀ c m, db.choosables.filter (fun c => c.pk == id) = [c] →
      metaLookup c.meta (pyUpper property) = some m →
      route_outgoing db id property
        = .ok ({ choosables := db.choosables.map
                   (fun t => if t.pk == id then
                      { t with clicked := t.clicked + 1 } else t) },
               m.meta_value)) := by
  unfold route_outgoing
  cases hg : db.choosables.filter (fun c => c.pk == id) with
  | nil =>
    constructor
    · constructor
      · intro _
        rintro ⟨c, hc, _⟩
        simp at hc
      · intro _
        exact ⟨.http404, rfl⟩
    · intro c m hc hm
      simp at hc
  | cons a rest =>
    cases rest with
    | nil =>
      have hamem : a ∈ db.choosables.filter (fun c => c.pk == id) := by
        rw [hg]
        exact List.mem_cons_self _ _
      have hapk : a.pk = id := by
        simpa using (List.mem_filter.mp hamem).2
      cases hm : metaLookup a.meta (pyUpper property) with
      | none =>
        constructor
        · constructor
          · intro _
            rintro ⟨c, hc, hsome⟩
            have hac : a = c := by simpa using hc
            rw [← hac, hm] at hsome
            simp at hsome
          · intro _
            exact ⟨.http404, by simp [hm]⟩
        · intro c m hc hm'
          have hac : a = c := by simpa using hc
          rw [← hac, hm] at hm'
          simp at hm'
      | some m0 =>
        constructor
        · constructor
          · intro he
            obtain ⟨e, he⟩ := he
            simp [hm] at he
          · intro hno
            exact absurd ⟨a, rfl, by simp [hm]⟩ hno
        · intro c m hc hm'
          have hac : a = c := by simpa using hc
          subst hac
          rw [hm] at hm'
          have hmm : m0 = m := by simpa using hm'
          subst hmm
          simp [hm, hapk]
    | cons b rest2 =>
      constructor
      · constructor
        · intro _
          rintro ⟨c, hc, _⟩
          simp at hc
        · intro _
          refine ⟨.http404, ?_⟩
          rw [if_neg (by simp [List.length_cons])]
      · intro c m hc hm'
        simp at hc

/-- A Choosable with one meta entry, for the C8 witness. -/
def cW : Choosable :=
  { pk := 1, clicked := 0,
    meta := [("HOMEPAGE", { meta_value := "https://example.org" })] }

/-- A store holding only `cW`. -/
def dbC : ChoosableDb := { choosables := [cW] }

/-- Witness for C8: Choosable 1 with property "homepage" redirects to the
stored target and bumps the counter. -/
theorem route_outgoing_spec_witness :
    route_outgoing dbC 1 "homepage"
      = .ok ({ choosables := dbC.choosables.map
                 (fun t => if t.pk == 1 then { t with clicked := t.clicked + 1 } else t) },
             (({ meta_value := "https://example.org" } : ChoosableMeta)).meta_value) :=
  (route_outgoing_spec dbC 1 "homepage").2 cW { meta_value := "https://example.org" }
    (by decide) (by decide)

/-- A `web.models.Category` row as used for step building: the target page
and the optional parent (`child_of`), plus the icon read by
`build_step_data`. -/
structure Category where
  cid : Nat
  target_page : Option Nat
  child_of : Option Nat
  icon : String
deriving DecidableEq

/-- The reference data and external predicates `route_index` works over:
the page link graph, the `Page` and `Category` rows, the visibility
predicate and the default language code. `is_visible` is modelled from the
spec: `Page.is_visible(session)` lives in `web.models`, outside src/ — a
version/selection-dependent predicate of the page and the session, taken
here as an arbitrary function of the page id and the session identity. -/
structure RouteEnv where
  g : PageGraph
  pages : List Page
  categories : List Category
  is_visible : Nat → Nat → Bool
  default_language_code : String

/-- The page lookup of `route_index` (web.py lines 196-201): by the `page`
GET parameter (`Page.objects.get` on the catalogue identifier, modelled by
the page id) or the first non-invalidated page. -/
def resolve_page (env : RouteEnv) (req : WebHttpRequest) : Option Page :=
  match req.pageParam with
  | some pid => env.pages.find? (fun p => p.pid == pid && !p.is_invalidated)
  | none => (env.pages.filter (fun p => !p.is_invalidated)).head?

/-- The category loop of `get_categories_and_filtered_pages` (web.py lines
142-149): for each chained page in order, append the first top-level
category (`child_of` null) targeting it, when one exists. -/
def collectCategories (cats : List Category) : List Nat → List Category
  | [] => []
  | p :: rest =>
    if ((cats.filter
          (fun c => c.target_page == some p && c.child_of == none)).length > 0) then
      match (cats.filter
          (fun c => c.target_page == some p && c.child_of == none)).head? with
      | some c => c :: collectCategories cats rest
      | none => collectCategories cats rest
    else collectCategories cats rest

/-- `get_categories_and_filtered_pages` (web.py lines 134-150): the pages
of the chain visible under the session, and the top-level categories in
page order. -/
def get_categories_and_filtered_pages (env : RouteEnv) (pages : List Nat) (sid : Nat) :
    List Nat × List Category :=
  (pages.filter (fun p => env.is_visible p sid), collectCategories env.categories pages)

/-- `build_step_data` (web.py lines 152-176). `Category.to_step` is an
external collaborator returning an opaque renderable step; its result is
modelled by the category identifier together with the is-last flag it is
given. Each entry carries the icon, the major step and the minor steps of
the child categories. -/
def build_step_data (allCats : List Category) (categories : List Category) :
    List (String × (Nat × Bool) × List Nat) :=
  categories.enum.map (fun e =>
    (e.2.icon,
     (e.2.cid, e.1 == categories.length - 1),
     (allCats.filter (fun d => d.child_of == some e.2.cid)).map (fun d => d.cid)))

/-- Modelled from the spec: the forward walk of
`Page.next_visible_page(page, session)` (in `web.models`, outside src/):
follow `next_page` links until a page visible under the session is found.
`some none` means the walk ended with no visible page; the fuel models the
unbounded walk as for `get_page_route`. -/
def nvpLoop (env : RouteEnv) (sid : Nat) : Nat → Option Nat → Option (Option Nat)
  | _, none => some none
  | 0, some _ => none
  | fuel + 1, some q =>
    if env.is_visible q sid then some (some q)
    else nvpLoop env sid fuel (env.g.next q)

/-- Modelled from the spec: the page `Page.next_visible_page` hands back to
`route_index` — the first visible page strictly forward in the chain, or,
when none exists (the spec's terminal no-suitable-page condition, which the
caller detects with its final `is_visible` check), the requested page
itself. -/
def next_visible_page (env : RouteEnv) (sid fuel p : Nat) : Option Nat :=
  (nvpLoop env sid fuel (env.g.next p)).map (fun r => r.getD p)

/-- The outcome of `route_index` at the HTTP boundary: a rendered response
with its status, or the `HttpResponseNotAllowed` (405) answer. -/
inductive RouteResult where
  | ok (status : Nat)
  | notAllowed
deriving DecidableEq

/-- The tail of `route_index` (web.py lines 232-288) after the session has
been resolved: filter the chain pages and collect the categories, replay
the `current_location` computation of lines 246-249 — whose value is never
read afterwards, so only the `pages[0]` IndexError on an empty filtered
list is reflected — fall forward to the next visible page when the
requested one is not visible (lines 256-257), build the step data, and
answer 405 when the final page is still not visible (line 261), else
render with status 200 (GET request: the turbo-header check forces the
status back to 200). -/
def route_index_render (env : RouteEnv) (fuel : Nat) (req : WebHttpRequest)
    (page : Page) (pages : List Nat) (session : Session) (db : Db) :
    Option (Except PyErr (RouteResult × Db)) :=
  if req.fullPath.length ≤ 1 ∧
      (get_categories_and_filtered_pages env pages session.result_id).1 = [] then
    some (.error .indexError)
  else
    match (if env.is_visible page.pid session.result_id then some page.pid
           else next_visible_page env session.result_id fuel page.pid) with
    | none => none
    | some p2 =>
      let _ := build_step_data env.categories
        (get_categories_and_filtered_pages env pages session.result_id).2
      if env.is_visible p2 session.result_id then some (.ok (.ok 200, db))
      else some (.ok (.notAllowed, db))

/-- `route_index` (web.py lines 192-288), modelled for GET requests (the
POST branch delegates to the external `forward_helper`). Resolve the page
(`DoesNotExist` when the `page` parameter matches nothing; an absent first
page leaves `page = None` and the chain walk dereferences it), walk the
chain, resolve the session, clone the selections of an old session when an
`id` path parameter is present, update the session's language code when it
changed (web.py lines 222-230), then continue in `route_index_render`.
`none` means a fueled walk would not have terminated. -/
def route_index (env : RouteEnv) (fuel : Nat) (req : WebHttpRequest)
    (language_code : Option String) (id : Option Nat) (db : Db) :
    Option (Except PyErr (RouteResult × Db)) :=
  match resolve_page env req with
  | none =>
    match req.pageParam with
    | some _ => some (.error .doesNotExist)
    | none => some (.error .attributeError)
  | some page =>
    match get_page_route env.g fuel page.pid with
    | none => none
    | some (_, pages) =>
      match get_session page req db with
      | .error e => some (.error e)
      | .ok (session, db, req) =>
        let (session, db, req) :=
          match id with
          | some oldId => clone_selections oldId req session db
          | none => (session, db, req)
        let lang :=
          match language_code with
          | none => env.default_language_code
          | some lc => if lc = "" then env.default_language_code else lc
        let (session, db) :=
          if session.language_code ≠ some lang then
            let s2 := { session with language_code := some lang }
            (s2, saveSession s2 db)
          else (session, db)
        route_index_render env fuel req page pages session db

lemma nvpLoop_all_invisible (env : RouteEnv) (sid : Nat) :
    ∀ (l : List Nat) (op : Option Nat) (fuel : Nat),
      fwdChainB env.g op l = true → l.length ≤ fuel →
      (∀ q ∈ l, env.is_visible q sid = false) →
      nvpLoop env sid fuel op = some none := by
  intro l
  induction l with
  | nil =>
    intro op fuel hc _ _
    cases op with
    | none => cases fuel <;> rfl
    | some q => simp [fwdChainB] at hc
  | cons q rest ih =>
    intro op fuel hc hlen hinv
    cases op with
    | none => simp [fwdChainB] at hc
    | some q' =>
      simp only [fwdChainB, Bool.and_eq_true, beq_iff_eq] at hc
      obtain ⟨hq, hrest⟩ := hc
      rw [hq]
      cases fuel with
      | zero => simp at hlen
      | succ f =>
        have hlen' : rest.length ≤ f := by
          simpa [Nat.succ_le_succ_iff] using hlen
        have hv : env.is_visible q sid = false := hinv q (List.mem_cons_self q rest)
        show (if env.is_visible q sid then some (some q)
              else nvpLoop env sid f (env.g.next q)) = some none
        rw [hv]
        simp only [Bool.false_eq_true, if_false]
        exact ih (env.g.next q) f hrest hlen'
          (fun x hx => hinv x (List.mem_cons.mpr (Or.inr hx)))

lemma route_index_render_notAllowed (env : RouteEnv) (fuel : Nat)
    (req : WebHttpRequest) (page : Page) (pre suf : List Nat) (session : Session)
    (db : Db)
    (hf : fwdChainB env.g (env.g.next page.pid) suf = true)
    (hff : suf.length ≤ fuel)
    (hpath : 1 < req.fullPath.length)
    (hinv : ∀ q ∈ pre ++ page.pid :: suf,
      env.is_visible q session.result_id = false) :
    route_index_render env fuel req page (pre ++ page.pid :: suf) session db
      = some (.ok (.notAllowed, db)) := by
  unfold route_index_render
  rw [if_neg (by rintro ⟨h1, _⟩; omega)]
  have hvp : env.is_visible page.pid session.result_id = false :=
    hinv page.pid (by simp)
  rw [hvp]
  simp only [Bool.false_eq_true, if_false]
  rw [next_visible_page,
    nvpLoop_all_invisible env session.result_id suf (env.g.next page.pid) fuel hf hff
      (fun q hq => hinv q (by simp [hq]))]
  simp [hvp]

/-- C9 (amended): when no page of the chain is visible under the resolved
session — the requested page is invisible and no visible substitute exists
forward — a GET request whose full path is longer than one character
receives the 405 `HttpResponseNotAllowed` answer; the bare "/" path
instead dies on the `pages[0]` IndexError of line 249 (see the
counterexample). -/
theorem route_index_no_visible_page_405 (env : RouteEnv) (fuel : Nat)
    (req : WebHttpRequest) (language_code : Option String) (db : Db)
    (page : Page) (pre suf : List Nat) (session : Session) (db1 : Db)
    (req1 : WebHttpRequest)
    (hpage : resolve_page env req = some page)
    (hb : backChainB env.g (env.g.prev page.pid) pre.reverse = true)
    (hf : fwdChainB env.g (env.g.next page.pid) suf = true)
    (hfb : pre.length ≤ fuel) (hff : suf.length ≤ fuel)
    (hsess : get_session page req db = .ok (session, db1, req1))
    (hpath : 1 < req1.fullPath.length)
    (hinv : ∀ q ∈ pre ++ page.pid :: suf,
      env.is_visible q session.result_id = false) :
    ∃ db2, route_index env fuel req language_code none db
      = some (.ok (.notAllowed, db2)) := by
  unfold route_index
  rw [hpage]
  simp only [get_page_route_chain env.g pre suf page.pid fuel hb hf hfb hff, hsess]
  split
  · exact ⟨_, route_index_render_notAllowed env fuel req1 page pre suf _ _ hf hff
      hpath hinv⟩
  · exact ⟨_, route_index_render_notAllowed env fuel req1 page pre suf _ _ hf hff
      hpath hinv⟩

/-- A single page requiring a session, the whole chain by itself. -/
def page9 : Page :=
  { pid := 0, require_session := true, is_invalidated := false, href := "/p0" }

/-- An environment with the single page `page9`, no links, no categories,
and a visibility predicate that holds for no page and no session. -/
def env9 : RouteEnv :=
  { g := { prev := fun _ => none, next := fun _ => none },
    pages := [page9],
    categories := [],
    is_visible := fun _ _ => false,
    default_language_code := "en" }

/-- A GET request for the bare start page "/" with no stored session. -/
def req9 : WebHttpRequest :=
  { sessionStore := none, user_agent := none, referrer := none,
    pageParam := none, fullPath := "/" }

/-- The same request with the language-prefixed path "/en". -/
def req9b : WebHttpRequest :=
  { sessionStore := none, user_agent := none, referrer := none,
    pageParam := none, fullPath := "/en" }

/-- The fresh session `get_session` creates for `req9b` over `dbEmpty`. -/
def s9 : Session :=
  { result_id := 10, valid_for := "latest", session_origin := none,
    user_agent := none, referrer := none, language_code := none }

/-- The store after that fresh session was saved. -/
def db9w : Db :=
  { sessions := [s9], selections := [], nextSessionId := 11, nextPk := 10 }

/-- The request after the fresh session id was stored into it. -/
def req9w : WebHttpRequest :=
  { sessionStore := some 10, user_agent := none, referrer := none,
    pageParam := none, fullPath := "/en" }

/-- Witness for the amended C9: under `env9` nothing is visible, and the
"/en" request receives the 405 answer. -/
theorem route_index_no_visible_page_405_witness :
    ∃ db2, route_index env9 5 req9b none none dbEmpty
      = some (.ok (.notAllowed, db2)) :=
  route_index_no_visible_page_405 env9 5 req9b none dbEmpty page9 [] [] s9 db9w req9w
    (by decide) (by decide) (by decide) (by decide) (by decide) rfl
    (by decide) (by decide)

/-- C9 counterexample: with no page of the chain visible and the request
path being the bare "/", `route_index` does not answer 405 — it fails with
the `IndexError` of `pages[0]` on the empty filtered page list (web.py
line 249). -/
theorem route_index_root_path_index_error :
    route_index env9 5 req9 none none dbEmpty = some (.error .indexError) ∧
    ¬ ∃ db2, route_index env9 5 req9 none none dbEmpty
        = some (.ok (.notAllowed, db2)) := by
  constructor
  · rfl
  · rintro ⟨db2, h⟩
    have h0 : route_index env9 5 req9 none none dbEmpty
        = some (.error .indexError) := rfl
    rw [h0] at h
    simp at h
